import Mathlib

/-!
Verification of the Loxone Stream Deck plugin (TypeScript sources) against
its natural-language specification.  The TypeScript code is shallowly
embedded: byte buffers become `List Nat` (each element one byte), JS
numbers become `ℚ` (with `Option` for `undefined`/`NaN` where the code
relies on falsiness), JS `Map` entries become `Option`-valued fields or
association lists, and callback-style network results become explicit
`ExecResult` / inbound-message parameters.
-/

namespace Loxone

/-! ### Wire frame decoder (`LoxoneClient.handleBinaryMessage`, `formatUuid`) -/

/-- Result of interpreting a 64-bit pattern as an IEEE-754 double:
either a finite rational value, one of the two infinities, or NaN. -/
inductive DoubleVal where
  | finite (q : ℚ)
  | posInf
  | negInf
  | nan
deriving DecidableEq, Repr

/-- Interpretation of a 64-bit word as an IEEE-754 binary64 value
(sign bit 63, 11 exponent bits, 52 mantissa bits). -/
def doubleOfBits (bits : Nat) : DoubleVal :=
  let sign : Nat := bits / 2 ^ 63 % 2
  let expo : Nat := bits / 2 ^ 52 % 2 ^ 11
  let mant : Nat := bits % 2 ^ 52
  let signFactor : ℚ := if sign = 1 then -1 else 1
  if expo = 2047 then
    if mant = 0 then (if sign = 1 then .negInf else .posInf) else .nan
  else if expo = 0 then
    .finite (signFactor * mant * (2 : ℚ) ^ (-1074 : ℤ))
  else
    .finite (signFactor * (2 ^ 52 + mant) * (2 : ℚ) ^ ((expo : ℤ) - 1075))

/-- Little-endian assembly of a byte list into a natural number, as
`Buffer.readDoubleLE` reads its 8 bytes (first byte least significant). -/
def bytesToNatLE : List Nat → Nat
  | [] => 0
  | b :: bs => b + 256 * bytesToNatLE bs

/-- Embedding of Node's `data.readDoubleLE(offset)`: reads the 8 bytes at
`offset`, assembles them little-endian and interprets them as an IEEE-754
double; `none` models the `RangeError` thrown when fewer than 8 bytes
remain. -/
def readDoubleLE (data : List Nat) (offset : Nat) : Option DoubleVal :=
  if offset + 8 ≤ data.length then
    some (doubleOfBits (bytesToNatLE ((data.drop offset).take 8)))
  else
    none

/-- Lowercase hexadecimal digit for `n < 16`. -/
def hexDigit (n : Nat) : Char :=
  "0123456789abcdef".toList.getD n '0'

/-- Hex character pairs of a byte list, two lowercase digits per byte,
mirroring `buffer.toString("hex")`. -/
def bytesToHexChars : List Nat → List Char
  | [] => []
  | b :: bs => hexDigit (b / 16) :: hexDigit (b % 16) :: bytesToHexChars bs

/-- Embedding of `buffer.toString("hex")`. -/
def bytesToHex (bs : List Nat) : String :=
  String.mk (bytesToHexChars bs)

/-- Embedding of JavaScript `s.substring(a, b)` (characters in `[a, b)`). -/
def substr (s : String) (a b : Nat) : String :=
  String.mk ((s.toList.drop a).take (b - a))

/-- Embedding of `LoxoneClient.formatUuid`: hex-encode the 16-byte buffer
and regroup the 32 hex characters as 8-4-4-4-12 with dashes. -/
def formatUuid (buffer : List Nat) : String :=
  let hex := bytesToHex buffer
  substr hex 0 8 ++ "-" ++ substr hex 8 12 ++ "-" ++ substr hex 12 16 ++
    "-" ++ substr hex 16 20 ++ "-" ++ substr hex 20 32

/-- Modelled from the spec's words, for comparison with `formatUuid`: the
canonical 8-4-4-4-12 hex-grouped rendering of 16 bytes, built directly
from the byte groups (4, 2, 2, 2, 6 bytes). -/
def specCanonicalUuid (bs : List Nat) : String :=
  bytesToHex (bs.take 4) ++ "-" ++ bytesToHex ((bs.drop 4).take 2) ++ "-" ++
    bytesToHex ((bs.drop 6).take 2) ++ "-" ++ bytesToHex ((bs.drop 8).take 2) ++
    "-" ++ bytesToHex (bs.drop 10)

/-- One value-update event as emitted by `valueChange` listeners. -/
structure LoxoneValueEvent where
  uuid : String
  value : DoubleVal
deriving DecidableEq, Repr

/-- Decoding loop of `handleBinaryMessage`: while at least 24 bytes remain
at `offset`, read 16 uuid bytes and an 8-byte little-endian double and
emit one event.  The `Bool` is the error flag of the surrounding
`try`/`catch` (true when a read threw mid-loop). -/
def decodeLoop (data : List Nat) (offset : Nat) : List LoxoneValueEvent × Bool :=
  if _h : offset + 24 ≤ data.length then
    let uuidBuffer := (data.drop offset).take 16
    let uuid := formatUuid uuidBuffer
    match readDoubleLE data (offset + 16) with
    | none => ([], true)
    | some value =>
      let rest := decodeLoop data (offset + 24)
      (⟨uuid, value⟩ :: rest.1, rest.2)
  else
    ([], false)
termination_by data.length - offset
decreasing_by omega

/-- Embedding of `LoxoneClient.handleBinaryMessage`: buffers shorter than
24 bytes are dropped up front; otherwise the 8-byte header is skipped and
the record loop runs. -/
def handleBinaryMessage (data : List Nat) : List LoxoneValueEvent × Bool :=
  if data.length < 24 then ([], false) else decodeLoop data 8

/-- Event produced from one complete 24-byte record. -/
def recordEvent (r : List Nat) : LoxoneValueEvent :=
  ⟨formatUuid (r.take 16), doubleOfBits (bytesToNatLE ((r.drop 16).take 8))⟩

/-! ### Base64 and the authenticate payload (`LoxoneClient.authenticate`) -/

/-- Standard base64 alphabet, as used by `Buffer.toString("base64")`. -/
def base64Alphabet : List Char :=
  "ABCDEFGHIJKLMNOPQRSTUVWXYZabcdefghijklmnopqrstuvwxyz0123456789+/".toList

/-- Character of the base64 alphabet at index `n < 64`. -/
def b64c (n : Nat) : Char :=
  base64Alphabet.getD n 'A'

/-- Base64 encoding of a byte list with `=` padding, as produced by
`Buffer.from(s).toString("base64")`. -/
def base64Encode : List Nat → String
  | [] => ""
  | [b1] =>
    String.mk [b64c (b1 / 4), b64c (b1 % 4 * 16)] ++ "=="
  | [b1, b2] =>
    String.mk [b64c (b1 / 4), b64c (b1 % 4 * 16 + b2 / 16), b64c (b2 % 16 * 4)] ++ "="
  | b1 :: b2 :: b3 :: bs =>
    String.mk [b64c (b1 / 4), b64c (b1 % 4 * 16 + b2 / 16),
      b64c (b2 % 16 * 4 + b3 / 64), b64c (b3 % 64)] ++ base64Encode bs

/-- UTF-8 bytes of a string, as `Buffer.from(string)` produces. -/
def utf8Bytes (s : String) : List Nat :=
  s.toUTF8.toList.map (fun b => b.toNat)

/-- Credential payload of `LoxoneClient.authenticate`: base64 of the
UTF-8 bytes of `username:password`. -/
def credsOf (username password : String) : String :=
  base64Encode (utf8Bytes (username ++ ":" ++ password))

/-! ### Session client state machine (`LoxoneClient`) -/

/-- Commands a `LoxoneClient` sends on its WebSocket, one constructor per
distinct send site in the source. -/
inductive Command where
  | authenticate (creds : String)
  | loadStructure
  | enableUpdates
  | keepalive
  | control (uuid cmd : String)
deriving DecidableEq, Repr

/-- Exact command string the source sends for each `Command`. -/
def Command.render : Command → String
  | .authenticate creds => "jdev/sys/authenticate/" ++ creds
  | .loadStructure => "data/LoxAPP3.json"
  | .enableUpdates => "jdev/sps/enablebinstatusupdate"
  | .keepalive => "keepalive"
  | .control uuid cmd => "jdev/sps/io/" ++ uuid ++ "/" ++ cmd

/-- Whether a command is the authenticate request. -/
def Command.isAuth : Command → Bool
  | .authenticate _ => true
  | _ => false

/-- Response value with which `sendCommand`'s message handler resolves:
`nullResp` when the inbound payload was not JSON, otherwise the parsed
object with its optional `LL` field (abstracted to an identifier). -/
inductive RespVal where
  | nullResp
  | jsonResp (ll : Option Nat)
deriving DecidableEq, Repr

/-- Mutable fields of a `LoxoneClient` relevant to the session state
machine, plus the chronological list of emitted event names. -/
structure ClientState where
  authenticated : Bool
  structureFile : Option Nat
  keepAliveTimer : Option Nat
  reconnectTimer : Option Nat
  emitted : List String
deriving DecidableEq, Repr

/-- Pop the next inbound message slot for a `sendCommand` call; an empty
or `none` slot models the 5-second timeout (the command still went out,
but no response resolved it). -/
def takeResp : List (Option RespVal) → Option RespVal × List (Option RespVal)
  | [] => (none, [])
  | r :: rest => (r, rest)

/-- Embedding of the `open` handler of `LoxoneClient.connect`: run
`authenticate`, `loadStructureFile`, `enableStatusUpdates`,
`startKeepAlive` in sequence, feeding each `sendCommand` the next inbound
slot.  Returns the final state, the commands sent in order, and whether
the connect promise resolved (`true`) or rejected (`false`). -/
def openHandler (username password : String) (st0 : ClientState)
    (inbound : List (Option RespVal)) : ClientState × List Command × Bool :=
  let authCmd := Command.authenticate (credsOf username password)
  let (r1, in1) := takeResp inbound
  match r1 with
  | none => (st0, [authCmd], false)
  | some _ =>
    let st1 := { st0 with authenticated := true }
    let (r2, in2) := takeResp in1
    match r2 with
    | none => (st1, [authCmd, .loadStructure], false)
    | some resp2 =>
      let st2 :=
        match resp2 with
        | .jsonResp (some ll) => { st1 with structureFile := some ll }
        | _ => st1
      let (r3, _) := takeResp in2
      match r3 with
      | none => (st2, [authCmd, .loadStructure, .enableUpdates], false)
      | some _ =>
        let st3 := { st2 with keepAliveTimer := some 30000,
                              emitted := st2.emitted ++ ["connected"] }
        (st3, [authCmd, .loadStructure, .enableUpdates], true)

/-- Reconnect delay of `LoxoneClient.scheduleReconnect`, in milliseconds. -/
def reconnectDelayMs : Nat := 5000

/-- Embedding of `LoxoneClient.scheduleReconnect`: do nothing when a
reconnect timer is already pending, otherwise arm one with the fixed
delay. -/
def scheduleReconnect (st : ClientState) : ClientState :=
  if st.reconnectTimer.isSome then st
  else { st with reconnectTimer := some reconnectDelayMs }

/-- Embedding of `LoxoneClient.stopKeepAlive`. -/
def stopKeepAlive (st : ClientState) : ClientState :=
  { st with keepAliveTimer := none }

/-- Reason the WebSocket closed; the source's `close` handler receives no
reason at all, so the embedding takes one and must ignore it. -/
inductive CloseReason where
  | clean
  | transportErr
deriving DecidableEq, Repr

/-- Embedding of the `close` handler of `LoxoneClient.connect`: clear the
authenticated flag, stop keep-alive, emit `disconnected`, schedule the
reconnect. -/
def closeHandler (_reason : CloseReason) (st : ClientState) : ClientState :=
  let st1 := { st with authenticated := false }
  let st2 := stopKeepAlive st1
  let st3 := { st2 with emitted := st2.emitted ++ ["disconnected"] }
  scheduleReconnect st3

/-- Firing of the pending reconnect timer: the timer slot is cleared and
`connect` runs again (whose outcome is irrelevant to the schedule). -/
def fireReconnectTimer (st : ClientState) : ClientState :=
  { st with reconnectTimer := none }

/-- State after the initial close and then `n` further rounds of
(reconnect timer fires, connection closes again). -/
def afterRounds (reason : CloseReason) (st : ClientState) : Nat → ClientState
  | 0 => closeHandler reason st
  | n + 1 => closeHandler reason (fireReconnectTimer (afterRounds reason st n))

/-- Embedding of `LoxoneClient.sendControl`: throw `Not authenticated`
before sending anything when the flag is down, otherwise send the control
command and resolve with the next inbound slot (or time out).  The second
component lists the commands actually sent. -/
def sendControl (st : ClientState) (uuid cmd : String)
    (inbound : List (Option RespVal)) : Except String Unit × List Command :=
  if st.authenticated = false then
    (.error "Not authenticated", [])
  else
    match takeResp inbound with
    | (none, _) => (.error "Command timeout", [.control uuid cmd])
    | (some _, _) => (.ok (), [.control uuid cmd])

/-! ### Connection registry (`LoxoneConnectionManager.getClient`) -/

/-- State of the static client registry; clients are identified by the
numeric order in which they were constructed, and `connectsOpened` counts
calls to `client.connect()`. -/
structure ManagerState where
  clients : List (String × Nat)
  nextId : Nat
  connectsOpened : Nat
deriving DecidableEq, Repr

/-- Embedding of `LoxoneConnectionManager.getClient`: key the registry by
`host:username`, return the cached client on a hit, otherwise construct a
fresh client, connect it, and register it. -/
def getClient (st : ManagerState) (host username _password : String) :
    ManagerState × Nat :=
  let key := host ++ ":" ++ username
  match st.clients.lookup key with
  | some c => (st, c)
  | none =>
    ({ clients := (key, st.nextId) :: st.clients,
       nextId := st.nextId + 1,
       connectsOpened := st.connectsOpened + 1 }, st.nextId)

/-! ### Command dispatcher (switch / dimmer / blind actions) -/

/-- Outcome of one `exec(curlCommand, ...)` call: a transport-level error,
or the trimmed stdout of curl's `%{http_code}` write-out. -/
inductive ExecResult where
  | execError
  | status (code : String)
deriving DecidableEq, Repr

/-- Whether an exec outcome is the success case the actions test for
(`statusCode === '200'`). -/
def isOk : ExecResult → Bool
  | .execError => false
  | .status code => code = "200"

/-- Embedding of JavaScript `v || d` on a number-or-absent value: `none`
models `undefined` (and `NaN`, equally falsy after `Number(...)`), and a
stored `0` is falsy too. -/
def jsOr (v : Option ℚ) (d : ℚ) : ℚ :=
  match v with
  | none => d
  | some x => if x = 0 then d else x

/-- Embedding of `SwitchAction.onKeyDown` for one button: from the stored
state map entry and the exec outcome, the new map entry and the command
verb sent (`On`/`Off`).  The stored flag is only written on status 200. -/
def switchOnKeyDown (st : Option Bool) (res : ExecResult) :
    Option Bool × String :=
  let currentState := st.getD false
  let newState := !currentState
  let command := if newState then "On" else "Off"
  match res with
  | .execError => (st, command)
  | .status code =>
    (if code = "200" then some newState else st, command)

/-- Observable outcome of one dimmer dial rotation: the `currentValues`
entry after the handler ran, the value embedded in the request URL, the
`dimmerStates` entry after the exec callback, and whether the title was
rewritten. -/
structure DimmerRotateOutcome where
  stored : ℚ
  sentValue : ℚ
  stateFlag : Option Bool
  titleUpdated : Bool
deriving DecidableEq, Repr

/-- Embedding of `DimmerAction.onDialRotate` for one button: step size
defaults to 5 via `||`, the current value defaults to 0 via `||`, the new
value is clamped with `Math.max(0, Math.min(100, ...))` and stored into
`currentValues` before the request is dispatched; the boolean flag and
title update happen only on status 200. -/
def dimmerOnDialRotate (current : Option ℚ) (prevFlag : Option Bool)
    (ticks : ℤ) (stepRaw : Option ℚ) (res : ExecResult) :
    DimmerRotateOutcome :=
  let stepSize := jsOr stepRaw 5
  let cur := jsOr current 0
  let newValue := max 0 (min 100 (cur + ticks * stepSize))
  match res with
  | .execError => ⟨newValue, newValue, prevFlag, false⟩
  | .status code =>
    if code = "200" then ⟨newValue, newValue, some (decide (0 < newValue)), true⟩
    else ⟨newValue, newValue, prevFlag, false⟩

/-- Observable outcome of one blind dial rotation: the `currentValues`
entry after the handler ran, the value embedded in the `ManualPosition`
URL, and the feedback value shown immediately. -/
structure BlindRotateOutcome where
  stored : ℚ
  sentValue : ℚ
  feedbackValue : ℚ
deriving DecidableEq, Repr

/-- Embedding of `BlindAction.onDialRotate` for one button: step size
defaults to 10 via `||`, the current value defaults to 0 via `||`, the
new value is clamped, stored, shown as feedback immediately, and sent as
`ManualPosition/<value>`. -/
def blindOnDialRotate (current : Option ℚ) (ticks : ℤ)
    (stepRaw : Option ℚ) (_res : ExecResult) : BlindRotateOutcome :=
  let stepSize := jsOr stepRaw 10
  let cur := jsOr current 0
  let newValue := max 0 (min 100 (cur + ticks * stepSize))
  ⟨newValue, newValue, newValue⟩

/-! ### Helper lemmas about the frame decoder -/

theorem bytesToHexChars_append (a b : List Nat) :
    bytesToHexChars (a ++ b) = bytesToHexChars a ++ bytesToHexChars b := by
  induction a with
  | nil => rfl
  | cons x xs ih => simp [bytesToHexChars, ih]

theorem bytesToHexChars_drop (k : Nat) (bs : List Nat) :
    (bytesToHexChars bs).drop (2 * k) = bytesToHexChars (bs.drop k) := by
  induction k generalizing bs with
  | zero => simp
  | succ n ih =>
    cases bs with
    | nil => simp [bytesToHexChars]
    | cons b bs =>
      have h2 : 2 * (n + 1) = (2 * n) + 1 + 1 := by ring
      simp only [bytesToHexChars, h2, List.drop_succ_cons, List.drop_succ_cons]
      exact ih bs

theorem bytesToHexChars_take (k : Nat) (bs : List Nat) :
    (bytesToHexChars bs).take (2 * k) = bytesToHexChars (bs.take k) := by
  induction k generalizing bs with
  | zero => simp [bytesToHexChars]
  | succ n ih =>
    cases bs with
    | nil => simp [bytesToHexChars]
    | cons b bs =>
      have h2 : 2 * (n + 1) = (2 * n) + 1 + 1 := by ring
      simp only [bytesToHexChars, h2, List.take_succ_cons, List.take_succ_cons]
      rw [ih bs]

theorem substr_bytesToHex (bs : List Nat) (a b : Nat) :
    substr (bytesToHex bs) (2 * a) (2 * b) =
      bytesToHex ((bs.drop a).take (b - a)) := by
  have hmul : 2 * b - 2 * a = 2 * (b - a) := by omega
  simp only [substr, bytesToHex, String.toList, String.data]
  rw [hmul, bytesToHexChars_drop, bytesToHexChars_take]

theorem formatUuid_eq_specCanonicalUuid (bs : List Nat) (h : bs.length = 16) :
    formatUuid bs = specCanonicalUuid bs := by
  have h0 : substr (bytesToHex bs) 0 8 = bytesToHex (bs.take 4) := by
    have := substr_bytesToHex bs 0 4
    simpa using this
  have h1 : substr (bytesToHex bs) 8 12 = bytesToHex ((bs.drop 4).take 2) := by
    have := substr_bytesToHex bs 4 6
    simpa using this
  have h2 : substr (bytesToHex bs) 12 16 = bytesToHex ((bs.drop 6).take 2) := by
    have := substr_bytesToHex bs 6 8
    simpa using this
  have h3 : substr (bytesToHex bs) 16 20 = bytesToHex ((bs.drop 8).take 2) := by
    have := substr_bytesToHex bs 8 10
    simpa using this
  have h4 : substr (bytesToHex bs) 20 32 = bytesToHex (bs.drop 10) := by
    have := substr_bytesToHex bs 10 16
    have hlen : (bs.drop 10).length ≤ 6 := by simp [h]
    rw [List.take_of_length_le hlen] at this
    simpa using this
  simp only [formatUuid, specCanonicalUuid, h0, h1, h2, h3, h4]

theorem decodeLoop_record_spec (recs : List (List Nat))
    (hr : ∀ r ∈ recs, r.length = 24) (pre trailing : List Nat)
    (ht : trailing.length < 24) :
    decodeLoop (pre ++ recs.flatten ++ trailing) pre.length =
      (recs.map recordEvent, false) := by
  induction recs generalizing pre with
  | nil =>
    have hcond : ¬ (pre.length + 24 ≤
        (pre ++ ([] : List (List Nat)).flatten ++ trailing).length) := by
      simp; omega
    rw [decodeLoop, dif_neg hcond]
    simp
  | cons r rs ih =>
    have hrlen : r.length = 24 := hr r (by simp)
    have hdata : pre ++ (r :: rs).flatten ++ trailing =
        pre ++ (r ++ (rs.flatten ++ trailing)) := by
      simp
    rw [decodeLoop]
    have hlen : (pre ++ (r :: rs).flatten ++ trailing).length =
        pre.length + 24 + (rs.flatten ++ trailing).length := by
      simp [hdata, hrlen]; omega
    have hcond : pre.length + 24 ≤ (pre ++ (r :: rs).flatten ++ trailing).length := by
      omega
    have hdrop : (pre ++ (r :: rs).flatten ++ trailing).drop pre.length =
        r ++ (rs.flatten ++ trailing) := by
      rw [hdata, List.drop_left]
    have huuid : ((pre ++ (r :: rs).flatten ++ trailing).drop pre.length).take 16 =
        r.take 16 := by
      rw [hdrop, List.take_append_of_le_length (by omega)]
    have hdrop16 : (pre ++ (r :: rs).flatten ++ trailing).drop (pre.length + 16) =
        r.drop 16 ++ (rs.flatten ++ trailing) := by
      have : pre ++ (r :: rs).flatten ++ trailing =
          (pre ++ r.take 16) ++ (r.drop 16 ++ (rs.flatten ++ trailing)) := by
        rw [hdata]
        simp only [List.append_assoc]
        congr 1
        conv_rhs => rw [← List.append_assoc]
        rw [List.take_append_drop]
      rw [this]
      have hl : (pre ++ r.take 16).length = pre.length + 16 := by
        simp [hrlen]
      rw [← hl, List.drop_left]
    have hvalue : readDoubleLE (pre ++ (r :: rs).flatten ++ trailing)
        (pre.length + 16) =
        some (doubleOfBits (bytesToNatLE ((r.drop 16).take 8))) := by
      rw [readDoubleLE, if_pos (by omega)]
      rw [hdrop16, List.take_append_of_le_length (by simp [hrlen])]
    have hrec : decodeLoop (pre ++ (r :: rs).flatten ++ trailing)
        (pre.length + 24) = (rs.map recordEvent, false) := by
      have heq : pre ++ (r :: rs).flatten ++ trailing =
          (pre ++ r) ++ rs.flatten ++ trailing := by simp
      have hl24 : pre.length + 24 = (pre ++ r).length := by simp [hrlen]
      rw [heq, hl24]
      exact ih (fun x hx => hr x (by simp [hx])) (pre ++ r)
    rw [dif_pos hcond]
    simp only [huuid, hvalue, hrec]
    simp [recordEvent, huuid]

theorem flatten_length_of_records (recs : List (List Nat))
    (hr : ∀ r ∈ recs, r.length = 24) :
    recs.flatten.length = 24 * recs.length := by
  induction recs with
  | nil => simp
  | cons r rs ih =>
    have := hr r (by simp)
    simp [this, ih (fun x hx => hr x (by simp [hx]))]
    omega

/-! ### Claim theorems -/

/-- C1: for every buffer made of an 8-byte header, `N` complete 24-byte
records and fewer than 24 trailing bytes, `handleBinaryMessage` emits
exactly the `N` record events, in buffer order, and its error flag stays
`false`; with `recs = []` this covers buffers with fewer than 24 bytes
after the header, which yield zero events and no error. -/
theorem frame_decoder_complete_records (header : List Nat)
    (hh : header.length = 8) (recs : List (List Nat))
    (hr : ∀ r ∈ recs, r.length = 24) (trailing : List Nat)
    (ht : trailing.length < 24) :
    handleBinaryMessage (header ++ recs.flatten ++ trailing) =
      (recs.map recordEvent, false) := by
  by_cases hshort : (header ++ recs.flatten ++ trailing).length < 24
  · have hflat : recs.flatten.length = 24 * recs.length :=
      flatten_length_of_records recs hr
    have hlen : (header ++ recs.flatten ++ trailing).length =
        8 + 24 * recs.length + trailing.length := by
      simp [hh, hflat]; omega
    have hzero : recs.length = 0 := by omega
    have hnil : recs = [] := List.length_eq_zero.mp hzero
    subst hnil
    rw [handleBinaryMessage, if_pos hshort]
    simp
  · rw [handleBinaryMessage, if_neg hshort]
    have hspec := decodeLoop_record_spec recs hr header trailing ht
    rw [hh] at hspec
    exact hspec

theorem frame_decoder_complete_records_witness :
    ([0, 0, 0, 0, 0, 0, 0, 0] : List Nat).length = 8
    ∧ (∀ r ∈ ([[0, 1, 2, 3, 4, 5, 6, 7, 8, 9, 10, 11, 12, 13, 14, 15,
          0, 0, 0, 0, 0, 0, 0x37, 0x40],
        [255, 255, 255, 255, 255, 255, 255, 255, 255, 255, 255, 255, 255,
          255, 255, 255, 0, 0, 0, 0, 0, 0, 0xf0, 0x3f]] : List (List Nat)),
        r.length = 24)
    ∧ ([1, 2, 3] : List Nat).length < 24
    ∧ handleBinaryMessage ([0, 0, 0, 0, 0, 0, 0, 0] ++
        ([[0, 1, 2, 3, 4, 5, 6, 7, 8, 9, 10, 11, 12, 13, 14, 15,
            0, 0, 0, 0, 0, 0, 0x37, 0x40],
          [255, 255, 255, 255, 255, 255, 255, 255, 255, 255, 255, 255, 255,
            255, 255, 255, 0, 0, 0, 0, 0, 0, 0xf0, 0x3f]] :
          List (List Nat)).flatten ++ [1, 2, 3]) =
        (([[0, 1, 2, 3, 4, 5, 6, 7, 8, 9, 10, 11, 12, 13, 14, 15,
            0, 0, 0, 0, 0, 0, 0x37, 0x40],
          [255, 255, 255, 255, 255, 255, 255, 255, 255, 255, 255, 255, 255,
            255, 255, 255, 0, 0, 0, 0, 0, 0, 0xf0, 0x3f]] :
          List (List Nat)).map recordEvent, false) :=
  ⟨by decide, by decide, by decide,
    frame_decoder_complete_records _ (by decide) _ (by decide) _ (by decide)⟩

/-- C2: for a buffer of an 8-byte header followed by exactly one 24-byte
record, the decoder emits exactly one event whose identifier is the
canonical 8-4-4-4-12 hex-grouped rendering of the record's first 16 bytes
and whose value is the IEEE-754 double decoded little-endian from the
record's last 8 bytes, with no error. -/
theorem frame_decoder_single_record (header r : List Nat)
    (hh : header.length = 8) (hr : r.length = 24) :
    handleBinaryMessage (header ++ r) =
      ([⟨specCanonicalUuid (r.take 16),
          doubleOfBits (bytesToNatLE (r.drop 16))⟩], false) := by
  have hspec := decodeLoop_record_spec [r] (by simp [hr]) header [] (by simp)
  rw [hh] at hspec
  have hbuf : header ++ ([r] : List (List Nat)).flatten ++ ([] : List Nat) =
      header ++ r := by simp
  rw [hbuf] at hspec
  have hlong : ¬ ((header ++ r).length < 24) := by simp [hh, hr]
  rw [handleBinaryMessage, if_neg hlong, hspec]
  have h16 : (r.take 16).length = 16 := by simp [hr]
  have h8 : (r.drop 16).take 8 = r.drop 16 :=
    List.take_of_length_le (by simp [hr])
  simp [recordEvent, formatUuid_eq_specCanonicalUuid _ h16, h8]

theorem frame_decoder_single_record_witness :
    ([9, 9, 9, 9, 9, 9, 9, 9] : List Nat).length = 8
    ∧ ([0x12, 0x34, 0x56, 0x78, 0x9a, 0xbc, 0xde, 0xf0, 1, 2, 3, 4, 5, 6,
        7, 8, 0, 0, 0, 0, 0, 0, 0x37, 0x40] : List Nat).length = 24
    ∧ handleBinaryMessage ([9, 9, 9, 9, 9, 9, 9, 9] ++
        [0x12, 0x34, 0x56, 0x78, 0x9a, 0xbc, 0xde, 0xf0, 1, 2, 3, 4, 5, 6,
          7, 8, 0, 0, 0, 0, 0, 0, 0x37, 0x40]) =
        ([⟨specCanonicalUuid (([0x12, 0x34, 0x56, 0x78, 0x9a, 0xbc, 0xde,
            0xf0, 1, 2, 3, 4, 5, 6, 7, 8, 0, 0, 0, 0, 0, 0, 0x37, 0x40] :
            List Nat).take 16),
          doubleOfBits (bytesToNatLE (([0x12, 0x34, 0x56, 0x78, 0x9a, 0xbc,
            0xde, 0xf0, 1, 2, 3, 4, 5, 6, 7, 8, 0, 0, 0, 0, 0, 0, 0x37,
            0x40] : List Nat).drop 16))⟩], false) :=
  ⟨by decide, by decide,
    frame_decoder_single_record _ _ (by decide) (by decide)⟩

/-- C3: on transport-level open, the session client sends exactly one
authenticate request whose payload embeds the base64 encoding of
`username:password`, then proceeds to load the catalog with the
authenticated flag set; the entire outcome is independent of the content
of the authentication response (`r1` versus `r1'`). -/
theorem open_handler_single_auth_optimistic (username password : String)
    (st0 : ClientState) (r1 r1' : RespVal) (rest : List (Option RespVal)) :
    ((openHandler username password st0 (some r1 :: rest)).2.1.countP
        Command.isAuth = 1)
    ∧ ((openHandler username password st0 (some r1 :: rest)).2.1.take 2 =
        [Command.authenticate (credsOf username password),
          Command.loadStructure])
    ∧ ((openHandler username password st0 (some r1 :: rest)).1.authenticated
        = true)
    ∧ (openHandler username password st0 (some r1 :: rest) =
        openHandler username password st0 (some r1' :: rest)) := by
  cases rest with
  | nil =>
    simp [openHandler, takeResp, List.countP_cons, Command.isAuth]
  | cons r2 rest2 =>
    cases r2 with
    | none =>
      simp [openHandler, takeResp, List.countP_cons, Command.isAuth]
    | some resp2 =>
      cases rest2 with
      | nil =>
        cases resp2 with
        | nullResp =>
          simp [openHandler, takeResp, List.countP_cons, Command.isAuth]
        | jsonResp ll =>
          cases ll <;>
            simp [openHandler, takeResp, List.countP_cons, Command.isAuth]
      | cons r3 rest3 =>
        cases r3 with
        | none =>
          cases resp2 with
          | nullResp =>
            simp [openHandler, takeResp, List.countP_cons, Command.isAuth]
          | jsonResp ll =>
            cases ll <;>
              simp [openHandler, takeResp, List.countP_cons, Command.isAuth]
        | some resp3 =>
          cases resp2 with
          | nullResp =>
            simp [openHandler, takeResp, List.countP_cons, Command.isAuth]
          | jsonResp ll =>
            cases ll <;>
              simp [openHandler, takeResp, List.countP_cons, Command.isAuth]

/-- C4: from a remembered state of off, the first key press sends `On`;
on status 200 the remembered flag becomes the request's target, otherwise
it is unchanged; when the first press succeeded, the second press sends
`Off`, and its stored flag again follows the 200-or-unchanged rule. -/
theorem switch_toggle_twice (r1 r2 : ExecResult) :
    ((switchOnKeyDown (some false) r1).2 = "On")
    ∧ ((switchOnKeyDown (some false) r1).1 =
        (if isOk r1 then some true else some false))
    ∧ (isOk r1 = true →
        (switchOnKeyDown (switchOnKeyDown (some false) r1).1 r2).2 = "Off")
    ∧ ((switchOnKeyDown (switchOnKeyDown (some false) r1).1 r2).1 =
        (if isOk r2
          then some (!((switchOnKeyDown (some false) r1).1.getD false))
          else (switchOnKeyDown (some false) r1).1)) := by
  rcases r1 with _ | c1 <;> rcases r2 with _ | c2
  · simp [switchOnKeyDown, isOk]
  · by_cases h2 : c2 = "200" <;> simp [switchOnKeyDown, isOk, h2]
  · by_cases h1 : c1 = "200" <;> simp [switchOnKeyDown, isOk, h1]
  · by_cases h1 : c1 = "200" <;> by_cases h2 : c2 = "200" <;>
      simp [switchOnKeyDown, isOk, h1, h2]

theorem switch_toggle_twice_witness :
    ((switchOnKeyDown (some false) (.status "200")).2 = "On")
    ∧ ((switchOnKeyDown (some false) (.status "200")).1 =
        (if isOk (.status "200") then some true else some false))
    ∧ (isOk (.status "200") = true →
        (switchOnKeyDown (switchOnKeyDown (some false) (.status "200")).1
          (.status "500")).2 = "Off")
    ∧ ((switchOnKeyDown (switchOnKeyDown (some false) (.status "200")).1
          (.status "500")).1 =
        (if isOk (.status "500")
          then some (!((switchOnKeyDown (some false) (.status "200")).1.getD
            false))
          else (switchOnKeyDown (some false) (.status "200")).1)) :=
  switch_toggle_twice (.status "200") (.status "500")

/-- C5: every dimmer or blind dial rotation computes its target as
`current + ticks * stepSize` clamped by `Math.max(0, Math.min(100, ·))`,
and both the stored and the sent value are that clamped result, which
always lies in `[0, 100]`. -/
theorem dial_rotate_clamped (current : Option ℚ) (prevFlag : Option Bool)
    (ticks : ℤ) (stepRaw : Option ℚ) (res : ExecResult) :
    ((dimmerOnDialRotate current prevFlag ticks stepRaw res).stored =
        max 0 (min 100 (jsOr current 0 + ticks * jsOr stepRaw 5)))
    ∧ (0 ≤ (dimmerOnDialRotate current prevFlag ticks stepRaw res).stored)
    ∧ ((dimmerOnDialRotate current prevFlag ticks stepRaw res).stored ≤ 100)
    ∧ ((dimmerOnDialRotate current prevFlag ticks stepRaw res).sentValue =
        (dimmerOnDialRotate current prevFlag ticks stepRaw res).stored)
    ∧ ((blindOnDialRotate current ticks stepRaw res).stored =
        max 0 (min 100 (jsOr current 0 + ticks * jsOr stepRaw 10)))
    ∧ (0 ≤ (blindOnDialRotate current ticks stepRaw res).stored)
    ∧ ((blindOnDialRotate current ticks stepRaw res).stored ≤ 100)
    ∧ ((blindOnDialRotate current ticks stepRaw res).sentValue =
        (blindOnDialRotate current ticks stepRaw res).stored) := by
  have hlo : ∀ x : ℚ, 0 ≤ max 0 (min 100 x) := fun x => le_max_left _ _
  have hhi : ∀ x : ℚ, max 0 (min 100 x) ≤ 100 :=
    fun x => max_le (by norm_num) (min_le_left _ _)
  rcases res with _ | c
  · simp [dimmerOnDialRotate, blindOnDialRotate, hlo, hhi]
  · by_cases hc : c = "200" <;>
      simp [dimmerOnDialRotate, blindOnDialRotate, hc, hlo, hhi]

/-- C6 counterexample: with remembered level 0, one tick at the default
step and a 404 response, the handler still stores 5 into
`currentValues` — the remembered level does not stay at its pre-rotation
value on a non-200 code, because the store happens before the request
completes. -/
theorem dimmer_store_on_failure_cex :
    (dimmerOnDialRotate (some 0) none 1 none (.status "404")).stored = 5
    ∧ (dimmerOnDialRotate (some 0) none 1 none (.status "404")).stored ≠ 0 := by
  constructor
  · simp [dimmerOnDialRotate, jsOr]
    norm_num
  · simp [dimmerOnDialRotate, jsOr]
    norm_num

/-- C6 amended: the newly computed clamped level is stored as the
remembered value unconditionally, before the request completes; only the
boolean on/off flag and the visible percentage are updated exactly when
the status code equals 200, and on a non-200 code or transport error they
keep their previous value while the remembered level already holds the
new clamped target. -/
theorem dimmer_rotate_store_unconditional (current : Option ℚ)
    (prevFlag : Option Bool) (ticks : ℤ) (stepRaw : Option ℚ)
    (res : ExecResult) :
    ((dimmerOnDialRotate current prevFlag ticks stepRaw res).stored =
        max 0 (min 100 (jsOr current 0 + ticks * jsOr stepRaw 5)))
    ∧ ((dimmerOnDialRotate current prevFlag ticks stepRaw res).stateFlag =
        (if isOk res
          then some (decide (0 < max 0 (min 100
            (jsOr current 0 + ticks * jsOr stepRaw 5))))
          else prevFlag))
    ∧ ((dimmerOnDialRotate current prevFlag ticks stepRaw res).titleUpdated
        = isOk res) := by
  rcases res with _ | c
  · simp [dimmerOnDialRotate, isOk]
  · by_cases hc : c = "200" <;> simp [dimmerOnDialRotate, isOk, hc]

/-- C7: the close handler — identical for clean closes and errors —
clears the keep-alive timer, emits `disconnected`, and arms exactly one
reconnect timer with the fixed 5000 ms delay; a second close while one is
pending schedules nothing new, and over any number of
close/fire-reconnect rounds the delay stays the same fixed 5000 ms with
no cap on the rounds. -/
theorem close_reconnect_policy (reason reason2 : CloseReason)
    (st : ClientState) (hrt : st.reconnectTimer = none) :
    ((closeHandler reason st).keepAliveTimer = none)
    ∧ ((closeHandler reason st).emitted = st.emitted ++ ["disconnected"])
    ∧ ((closeHandler reason st).authenticated = false)
    ∧ ((closeHandler reason st).reconnectTimer = some reconnectDelayMs)
    ∧ (reconnectDelayMs = 5000)
    ∧ (closeHandler reason st = closeHandler reason2 st)
    ∧ ((closeHandler reason2 (closeHandler reason st)).reconnectTimer =
        some reconnectDelayMs)
    ∧ (∀ n, (afterRounds reason st n).reconnectTimer =
        some reconnectDelayMs) := by
  refine ⟨?_, ?_, ?_, ?_, rfl, ?_, ?_, ?_⟩
  · simp [closeHandler, stopKeepAlive, scheduleReconnect, hrt]
  · simp [closeHandler, stopKeepAlive, scheduleReconnect, hrt]
  · simp [closeHandler, stopKeepAlive, scheduleReconnect, hrt]
  · simp [closeHandler, stopKeepAlive, scheduleReconnect, hrt]
  · rfl
  · simp [closeHandler, stopKeepAlive, scheduleReconnect, hrt]
  · intro n
    induction n with
    | zero => simp [afterRounds, closeHandler, stopKeepAlive,
        scheduleReconnect, hrt]
    | succ m _ => simp [afterRounds, closeHandler, stopKeepAlive,
        scheduleReconnect, fireReconnectTimer]

theorem close_reconnect_policy_witness :
    (ClientState.mk true none (some 30000) none []).reconnectTimer = none
    ∧ (((closeHandler .clean
          (ClientState.mk true none (some 30000) none [])).keepAliveTimer
          = none)
    ∧ ((closeHandler .clean
          (ClientState.mk true none (some 30000) none [])).emitted =
        (ClientState.mk true none (some 30000) none []).emitted ++
          ["disconnected"])
    ∧ ((closeHandler .clean
          (ClientState.mk true none (some 30000) none [])).authenticated
          = false)
    ∧ ((closeHandler .clean
          (ClientState.mk true none (some 30000) none [])).reconnectTimer =
        some reconnectDelayMs)
    ∧ (reconnectDelayMs = 5000)
    ∧ (closeHandler .clean (ClientState.mk true none (some 30000) none [])
        = closeHandler .transportErr
            (ClientState.mk true none (some 30000) none []))
    ∧ ((closeHandler .transportErr (closeHandler .clean
          (ClientState.mk true none (some 30000) none []))).reconnectTimer
        = some reconnectDelayMs)
    ∧ (∀ n, (afterRounds .clean
          (ClientState.mk true none (some 30000) none []) n).reconnectTimer
        = some reconnectDelayMs)) :=
  ⟨rfl, close_reconnect_policy .clean .transportErr
    (ClientState.mk true none (some 30000) none []) rfl⟩

/-- C8: two sequential `getClient` calls with the same host and username
return the identical client and leave the registry state untouched — in
particular no new connection is opened — even when the passwords differ,
because the key is `host:username` only. -/
theorem manager_get_client_shared (st : ManagerState)
    (host username p1 p2 : String) :
    ((getClient (getClient st host username p1).1 host username p2).2 =
        (getClient st host username p1).2)
    ∧ ((getClient (getClient st host username p1).1 host username p2).1 =
        (getClient st host username p1).1)
    ∧ ((getClient (getClient st host username p1).1 host username
          p2).1.connectsOpened =
        (getClient st host username p1).1.connectsOpened) := by
  cases hl : st.clients.lookup (host ++ ":" ++ username) with
  | some c => simp [getClient, hl]
  | none => simp [getClient, hl, List.lookup]

/-- C9: calling `sendControl` while the authenticated flag is false
throws `Not authenticated` and sends no command on the connection. -/
theorem send_control_unauthenticated (st : ClientState) (uuid cmd : String)
    (inbound : List (Option RespVal)) (hauth : st.authenticated = false) :
    sendControl st uuid cmd inbound = (.error "Not authenticated", []) := by
  simp [sendControl, hauth]

theorem send_control_unauthenticated_witness :
    (ClientState.mk false none none none []).authenticated = false
    ∧ sendControl (ClientState.mk false none none none []) "uuid-1" "On" []
        = (.error "Not authenticated", []) :=
  ⟨rfl, send_control_unauthenticated
    (ClientState.mk false none none none []) "uuid-1" "On" [] rfl⟩

/-- C10: an absent or zero (and, via `Number(...)` yielding `NaN`,
non-numeric) step size makes the dimmer dial step by 5 and the blind dial
by 10 per tick, and a missing remembered current value is treated as 0. -/
theorem dial_rotate_defaults (current : Option ℚ) (prevFlag : Option Bool)
    (ticks : ℤ) (stepRaw : Option ℚ) (res : ExecResult) :
    ((dimmerOnDialRotate current prevFlag ticks none res).sentValue =
        max 0 (min 100 (jsOr current 0 + ticks * 5)))
    ∧ ((dimmerOnDialRotate current prevFlag ticks (some 0) res).sentValue =
        max 0 (min 100 (jsOr current 0 + ticks * 5)))
    ∧ ((blindOnDialRotate current ticks none res).sentValue =
        max 0 (min 100 (jsOr current 0 + ticks * 10)))
    ∧ ((blindOnDialRotate current ticks (some 0) res).sentValue =
        max 0 (min 100 (jsOr current 0 + ticks * 10)))
    ∧ ((dimmerOnDialRotate none prevFlag ticks stepRaw res).sentValue =
        max 0 (min 100 (0 + ticks * jsOr stepRaw 5)))
    ∧ ((blindOnDialRotate none ticks stepRaw res).sentValue =
        max 0 (min 100 (0 + ticks * jsOr stepRaw 10))) := by
  rcases res with _ | c
  · simp [dimmerOnDialRotate, blindOnDialRotate, jsOr]
  · by_cases hc : c = "200" <;>
      simp [dimmerOnDialRotate, blindOnDialRotate, jsOr, hc]

end Loxone
